import Mathlib

/-!
Shallow embedding of the digital wallet system's ledger core: the wallet
context's balance derivation, rate-limit check and the deposit / withdraw /
transfer operations (`src/contexts/WalletContext.tsx`), together with the
auth context's user lookup (`getUserById`).  Amounts are modelled as
rationals, timestamps as integer milliseconds; the wall-clock values the
source reads during an operation (`Date.now()` and the midnight-truncated
`today`) are passed as explicit parameters `nowMs` / `startOfDay`.
-/

namespace DigitalWallet

/-- A user of the auth context (`User` in `AuthContext`). -/
structure User where
  id : String
  name : String
  email : String
  password : String
  createdAt : Int
  deriving DecidableEq, Repr

/-- The four transaction kinds of `TransactionType`. -/
inductive TransactionType where
  | deposit
  | withdrawal
  | transfer_in
  | transfer_out
  deriving DecidableEq, Repr

/-- A ledger entry (`Transaction` in `WalletContext`); the `id` field of the
source is an opaque uuid with no semantic effect and is omitted. -/
structure Transaction where
  userId : String
  type : TransactionType
  amount : ℚ
  senderOrRecipient : Option String := none
  timestamp : Int
  description : Option String := none
  deriving DecidableEq, Repr

/-- The hard-coded `TRANSACTION_LIMITS` record. -/
structure TransactionLimits where
  maxTransactionsPerMinute : Nat
  maxAmountPerTransaction : ℚ
  maxDailyWithdrawal : ℚ
  maxDailyTransfer : ℚ
  deriving Repr

def TRANSACTION_LIMITS : TransactionLimits :=
  { maxTransactionsPerMinute := 5
    maxAmountPerTransaction := 10000
    maxDailyWithdrawal := 5000
    maxDailyTransfer := 5000 }

/-- The reducer of the source's balance computation: credit deposits and
incoming transfers, debit withdrawals and outgoing transfers. -/
def balanceStep (total : ℚ) (t : Transaction) : ℚ :=
  match t.type with
  | TransactionType.deposit => total + t.amount
  | TransactionType.transfer_in => total + t.amount
  | TransactionType.withdrawal => total - t.amount
  | TransactionType.transfer_out => total - t.amount

/-- The filter `t.userId === currentUser?.id` (false when nobody is logged
in, since `undefined` never equals a string id). -/
def ownedBy (currentUser : Option User) (t : Transaction) : Bool :=
  match currentUser with
  | some u => t.userId == u.id
  | none => false

/-- The source balance: fold of `balanceStep` over the current user's entries. -/
def balance (currentUser : Option User) (transactions : List Transaction) : ℚ :=
  (transactions.filter (ownedBy currentUser)).foldl balanceStep 0

/-- The two categories `checkRateLimits` is called with. -/
inductive RateLimitCategory where
  | withdrawal
  | transfer
  deriving DecidableEq, Repr

/-- The source checkRateLimits(amount, type): `nowMs` stands for the `Date.now()`
read on line 81 of the source and `startOfDay` for the midnight-truncated
`today` of line 92.  The two daily sums are computed unconditionally here;
the source computes each one just inside the corresponding `if`, which is
observationally identical for a pure computation. -/
def checkRateLimits (currentUser : Option User) (transactions : List Transaction)
    (amount : ℚ) (category : RateLimitCategory) (nowMs startOfDay : Int) : Bool :=
  match currentUser with
  | none => false
  | some u =>
    if amount > TRANSACTION_LIMITS.maxAmountPerTransaction then
      false
    else
      let oneMinuteAgo : Int := nowMs - 60000
      let recentTransactions := transactions.filter fun t =>
        t.userId == u.id && decide (t.timestamp > oneMinuteAgo)
      if TRANSACTION_LIMITS.maxTransactionsPerMinute ≤ recentTransactions.length then
        false
      else
        let dailyWithdrawals : ℚ :=
          (transactions.filter fun t =>
            t.userId == u.id && t.type == TransactionType.withdrawal &&
              decide (startOfDay ≤ t.timestamp)).foldl (fun s t => s + t.amount) 0
        if category = RateLimitCategory.withdrawal ∧
            dailyWithdrawals + amount > TRANSACTION_LIMITS.maxDailyWithdrawal then
          false
        else
          let dailyTransfers : ℚ :=
            (transactions.filter fun t =>
              t.userId == u.id && t.type == TransactionType.transfer_out &&
                decide (startOfDay ≤ t.timestamp)).foldl (fun s t => s + t.amount) 0
          if category = RateLimitCategory.transfer ∧
              dailyTransfers + amount > TRANSACTION_LIMITS.maxDailyTransfer then
            false
          else
            true

/-- The source deposit(amount): fails when nobody is logged in or the amount is not
positive; otherwise appends one deposit entry.  Returns the source's boolean
result together with the updated transaction log. -/
def deposit (currentUser : Option User) (transactions : List Transaction)
    (amount : ℚ) (nowMs : Int) : Bool × List Transaction :=
  match currentUser with
  | none => (false, transactions)
  | some u =>
    if amount ≤ 0 then
      (false, transactions)
    else
      (true, transactions ++
        [{ userId := u.id, type := TransactionType.deposit, amount := amount,
           timestamp := nowMs }])

/-- The source withdraw(amount): fails on missing user, non-positive amount, amount
above the derived balance, or a rate-limit denial; otherwise appends one
withdrawal entry. -/
def withdraw (currentUser : Option User) (transactions : List Transaction)
    (amount : ℚ) (nowMs startOfDay : Int) : Bool × List Transaction :=
  match currentUser with
  | none => (false, transactions)
  | some u =>
    if amount ≤ 0 ∨ balance (some u) transactions < amount then
      (false, transactions)
    else if checkRateLimits (some u) transactions amount
        RateLimitCategory.withdrawal nowMs startOfDay = false then
      (false, transactions)
    else
      (true, transactions ++
        [{ userId := u.id, type := TransactionType.withdrawal, amount := amount,
           timestamp := nowMs }])

/-- The source transfer(amount, recipientId): fails on missing user, non-positive
amount, amount above the derived balance, self transfer, or a rate-limit
denial; otherwise appends the outgoing and the incoming entry in one state
update. -/
def transfer (currentUser : Option User) (transactions : List Transaction)
    (amount : ℚ) (recipientId : String) (nowMs startOfDay : Int) :
    Bool × List Transaction :=
  match currentUser with
  | none => (false, transactions)
  | some u =>
    if amount ≤ 0 ∨ balance (some u) transactions < amount ∨ u.id = recipientId then
      (false, transactions)
    else if checkRateLimits (some u) transactions amount
        RateLimitCategory.transfer nowMs startOfDay = false then
      (false, transactions)
    else
      (true, transactions ++
        [{ userId := u.id, type := TransactionType.transfer_out, amount := amount,
           senderOrRecipient := some recipientId, timestamp := nowMs },
         { userId := recipientId, type := TransactionType.transfer_in, amount := amount,
           senderOrRecipient := some u.id, timestamp := nowMs }])

/-- Stable insertion (descending by timestamp) used to model the
`sort((a, b) => b.timestamp - a.timestamp)` of `getTransactionHistory`. -/
def insertDesc (t : Transaction) : List Transaction → List Transaction
  | [] => [t]
  | h :: rest =>
    if t.timestamp ≤ h.timestamp then h :: insertDesc t rest else t :: h :: rest

/-- The source getTransactionHistory(): empty when nobody is logged in, otherwise the
user's entries most-recent first. -/
def getTransactionHistory (currentUser : Option User)
    (transactions : List Transaction) : List Transaction :=
  match currentUser with
  | none => []
  | some u =>
    (transactions.filter fun t => t.userId == u.id).foldl
      (fun acc t => insertDesc t acc) []

/-- The lookup getUserById of the auth context: first user with the given id. -/
def getUserById (users : List User) (id : String) : Option User :=
  users.find? fun u => u.id == id

/-- One invocation of a mutating wallet operation, with the wall-clock
values read during that invocation. -/
inductive Op where
  | dep (amount : ℚ) (nowMs : Int)
  | wd (amount : ℚ) (nowMs startOfDay : Int)
  | tr (amount : ℚ) (recipientId : String) (nowMs startOfDay : Int)

/-- The transaction log after running one operation (failed operations
leave the log as it was). -/
def applyOp (currentUser : Option User) (transactions : List Transaction) :
    Op → List Transaction
  | Op.dep a n => (deposit currentUser transactions a n).2
  | Op.wd a n s => (withdraw currentUser transactions a n s).2
  | Op.tr a r n s => (transfer currentUser transactions a r n s).2

/-- Logs reachable from the empty log by the public operations, each run by
whoever is logged in at the time. -/
inductive Reachable : List Transaction → Prop
  | nil : Reachable []
  | step (currentUser : Option User) (op : Op) {l : List Transaction} :
      Reachable l → Reachable (applyOp currentUser l op)

/-- The signed contribution of one entry to its owner's balance. -/
def signedAmount (t : Transaction) : ℚ :=
  match t.type with
  | TransactionType.deposit => t.amount
  | TransactionType.transfer_in => t.amount
  | TransactionType.withdrawal => -t.amount
  | TransactionType.transfer_out => -t.amount

/-- Balance of the actor with the given id, expressed as a plain sum. -/
def sBal (uid : String) (l : List Transaction) : ℚ :=
  ((l.filter fun t => t.userId == uid).map signedAmount).sum

/-- The derivation BalanceOf keyed by an actor id (the source's `balance` with a user
record whose only relevant field is the id). -/
def balanceOfId (uid : String) (l : List Transaction) : ℚ :=
  balance (some { id := uid, name := "", email := "", password := "", createdAt := 0 }) l

/-- Modelled from the spec, section 3: the credit entries of an actor
(Deposit and TransferIn). -/
def creditEntries (uid : String) (l : List Transaction) : List Transaction :=
  l.filter fun t => t.userId == uid &&
    (t.type == TransactionType.deposit || t.type == TransactionType.transfer_in)

/-- Modelled from the spec, section 3: the debit entries of an actor
(Withdrawal and TransferOut). -/
def debitEntries (uid : String) (l : List Transaction) : List Transaction :=
  l.filter fun t => t.userId == uid &&
    (t.type == TransactionType.withdrawal || t.type == TransactionType.transfer_out)

/-- Modelled from the spec, section 3: credits minus debits. -/
def specBalance (uid : String) (l : List Transaction) : ℚ :=
  ((creditEntries uid l).map Transaction.amount).sum -
    ((debitEntries uid l).map Transaction.amount).sum

/-- Number of the actor's entries inside the trailing 60 second window. -/
def recentCount (u : User) (l : List Transaction) (nowMs : Int) : Nat :=
  (l.filter fun t => t.userId == u.id && decide (t.timestamp > nowMs - 60000)).length

/-- Sum of the actor's withdrawal amounts since the start of the day. -/
def dailyWithdrawalSum (u : User) (l : List Transaction) (startOfDay : Int) : ℚ :=
  ((l.filter fun t => t.userId == u.id && t.type == TransactionType.withdrawal &&
      decide (startOfDay ≤ t.timestamp)).map Transaction.amount).sum

/-- Sum of the actor's outgoing transfer amounts since the start of the day. -/
def dailyTransferSum (u : User) (l : List Transaction) (startOfDay : Int) : ℚ :=
  ((l.filter fun t => t.userId == u.id && t.type == TransactionType.transfer_out &&
      decide (startOfDay ≤ t.timestamp)).map Transaction.amount).sum

/-- Modelled from the spec, section 4.2: the rate-limit algorithm as
written there — (1) per-transaction cap, (2) per-minute count, (3) daily
withdrawal cap, (4) daily transfer cap, (5) allow — in that order. -/
def evaluateSpec (u : User) (history : List Transaction) (amount : ℚ)
    (category : RateLimitCategory) (nowMs startOfDay : Int) : Bool :=
  if amount > 10000 then
    false
  else if 5 ≤ recentCount u history nowMs then
    false
  else if category = RateLimitCategory.withdrawal ∧
      dailyWithdrawalSum u history startOfDay + amount > 5000 then
    false
  else if category = RateLimitCategory.transfer ∧
      dailyTransferSum u history startOfDay + amount > 5000 then
    false
  else
    true

/-- Total amount ever deposited in the log. -/
def totalDeposits (l : List Transaction) : ℚ :=
  ((l.filter fun t => t.type == TransactionType.deposit).map Transaction.amount).sum

/-- Total amount ever withdrawn in the log. -/
def totalWithdrawals (l : List Transaction) : ℚ :=
  ((l.filter fun t => t.type == TransactionType.withdrawal).map Transaction.amount).sum

section Lemmas

/-- Folding `balanceStep` from any start value shifts the plain sum. -/
theorem foldl_balanceStep (l : List Transaction) (z : ℚ) :
    l.foldl balanceStep z = z + (l.map signedAmount).sum := by
  induction l generalizing z with
  | nil => simp
  | cons t l ih =>
    rw [List.foldl_cons, ih]
    cases h : t.type <;>
      simp [balanceStep, signedAmount, h, List.map_cons, List.sum_cons] <;> ring

/-- Folding the amount accumulator equals summing the amounts. -/
theorem foldl_amount (l : List Transaction) (z : ℚ) :
    l.foldl (fun s t => s + t.amount) z = z + (l.map Transaction.amount).sum := by
  induction l generalizing z with
  | nil => simp
  | cons t l ih =>
    rw [List.foldl_cons, ih]
    simp [List.map_cons, List.sum_cons]
    ring

/-- The source's balance is the signed sum over the user's entries. -/
theorem balance_eq_sBal (u : User) (l : List Transaction) :
    balance (some u) l = sBal u.id l := by
  unfold balance sBal ownedBy
  rw [foldl_balanceStep]
  simp

theorem sBal_nil (uid : String) : sBal uid [] = 0 := rfl

theorem sBal_append (uid : String) (l₁ l₂ : List Transaction) :
    sBal uid (l₁ ++ l₂) = sBal uid l₁ + sBal uid l₂ := by
  simp [sBal, List.filter_append]

theorem sBal_cons (uid : String) (t : Transaction) (l : List Transaction) :
    sBal uid (t :: l) = (if t.userId = uid then signedAmount t else 0) + sBal uid l := by
  by_cases h : t.userId = uid <;> simp [sBal, List.filter_cons, h]

theorem sBal_singleton (uid : String) (t : Transaction) :
    sBal uid [t] = if t.userId = uid then signedAmount t else 0 := by
  rw [sBal_cons, sBal_nil, add_zero]

theorem balanceOfId_eq_sBal (uid : String) (l : List Transaction) :
    balanceOfId uid l = sBal uid l := by
  unfold balanceOfId
  exact balance_eq_sBal _ l

/-- Code-side balance agrees with the spec formula, entry by entry. -/
theorem sBal_eq_specBalance (uid : String) (l : List Transaction) :
    sBal uid l = specBalance uid l := by
  induction l with
  | nil => simp [sBal, specBalance, creditEntries, debitEntries]
  | cons t l ih =>
    rw [sBal_cons, ih]
    unfold specBalance creditEntries debitEntries
    by_cases hu : t.userId = uid
    · cases ht : t.type <;>
        simp [List.filter_cons, hu, ht, signedAmount] <;> ring
    · simp [List.filter_cons, hu]

/-- A successful transfer appends exactly the outgoing/incoming pair. -/
theorem transfer_success_append (u : User) (l : List Transaction) (a : ℚ)
    (rid : String) (n s : Int) :
    (transfer (some u) l a rid n s).1 = true →
      (transfer (some u) l a rid n s).2 = l ++
        [{ userId := u.id, type := TransactionType.transfer_out, amount := a,
           senderOrRecipient := some rid, timestamp := n },
         { userId := rid, type := TransactionType.transfer_in, amount := a,
           senderOrRecipient := some u.id, timestamp := n }] := by
  simp only [transfer]
  split
  · intro h; exact absurd h (by simp)
  · split
    · intro h; exact absurd h (by simp)
    · intro _; rfl

/-- A failed transfer leaves the log untouched. -/
theorem transfer_failure_log (u : User) (l : List Transaction) (a : ℚ)
    (rid : String) (n s : Int) :
    (transfer (some u) l a rid n s).1 = false →
      (transfer (some u) l a rid n s).2 = l := by
  simp only [transfer]
  split
  · intro _; rfl
  · split
    · intro _; rfl
    · intro h; exact absurd h (by simp)

end Lemmas

section Fixtures

def userA : User :=
  { id := "a", name := "Alice", email := "alice@example.com", password := "pw",
    createdAt := 0 }

def userB : User :=
  { id := "b", name := "Bob", email := "bob@example.com", password := "pw",
    createdAt := 0 }

def usersEx : List User := [userA, userB]

def nowEx : Int := 1000000

def sodEx : Int := 500000

/-- One deposit of 100 for actor `a`, long before `nowEx`. -/
def logOld : List Transaction :=
  [{ userId := "a", type := TransactionType.deposit, amount := 100, timestamp := 0 }]

/-- The log produced by one successful deposit of 100 by `userA`. -/
def logDep : List Transaction := (deposit (some userA) [] 100 0).2

/-- A deposit of 100 for actor `a` inside the trailing minute. -/
def recentTx : Transaction :=
  { userId := "a", type := TransactionType.deposit, amount := 100, timestamp := nowEx }

def log4 : List Transaction := List.replicate 4 recentTx

def log5 : List Transaction := List.replicate 5 recentTx

/-- One deposit of only 5 for actor `a`, long before `nowEx`. -/
def logIF : List Transaction :=
  [{ userId := "a", type := TransactionType.deposit, amount := 5, timestamp := 0 }]

end Fixtures

/-- C1: for every actor and every transaction log, the derived balance
equals the sum of the actor's Deposit and TransferIn amounts minus the sum
of the actor's Withdrawal and TransferOut amounts, and it is 0 for an actor
with no entries in the log (the derivation never fails). -/
theorem balance_is_credits_minus_debits (u : User) (l : List Transaction) :
    balance (some u) l = specBalance u.id l ∧
      ((∀ t ∈ l, t.userId ≠ u.id) → balance (some u) l = 0) := by
  constructor
  · rw [balance_eq_sBal]
    exact sBal_eq_specBalance u.id l
  · intro h
    rw [balance_eq_sBal]
    have hnil : l.filter (fun t => t.userId == u.id) = [] := by
      rw [List.filter_eq_nil_iff]
      intro t ht
      simp [h t ht]
    simp [sBal, hnil]

theorem balance_is_credits_minus_debits_witness :
    balance (some userA) logDep = specBalance "a" logDep ∧
      balance (some userA) [] = 0 :=
  ⟨(balance_is_credits_minus_debits userA logDep).1,
   (balance_is_credits_minus_debits userA []).2 (by simp)⟩

/-- C2: a successful transfer appends exactly two new entries, one
TransferOut for the sender and one TransferIn for the recipient, with the
same amount and the same timestamp, as one atomic pair; a failed transfer
appends nothing. -/
theorem transfer_atomic_pair (u : User) (l : List Transaction) (a : ℚ)
    (rid : String) (n s : Int) :
    ((transfer (some u) l a rid n s).1 = true →
      (transfer (some u) l a rid n s).2 = l ++
        [{ userId := u.id, type := TransactionType.transfer_out, amount := a,
           senderOrRecipient := some rid, timestamp := n },
         { userId := rid, type := TransactionType.transfer_in, amount := a,
           senderOrRecipient := some u.id, timestamp := n }]) ∧
    ((transfer (some u) l a rid n s).1 = false →
      (transfer (some u) l a rid n s).2 = l) :=
  ⟨transfer_success_append u l a rid n s, transfer_failure_log u l a rid n s⟩

theorem transfer_atomic_pair_witness :
    (transfer (some userA) logOld 50 "b" nowEx sodEx).2 = logOld ++
      [{ userId := "a", type := TransactionType.transfer_out, amount := 50,
         senderOrRecipient := some "b", timestamp := nowEx },
       { userId := "b", type := TransactionType.transfer_in, amount := 50,
         senderOrRecipient := some "a", timestamp := nowEx }] ∧
    (transfer (some userA) logOld 0 "b" nowEx sodEx).2 = logOld :=
  ⟨(transfer_atomic_pair userA logOld 50 "b" nowEx sodEx).1 (by
      norm_num [transfer, balance, ownedBy, balanceStep, checkRateLimits,
        TRANSACTION_LIMITS, logOld, userA, nowEx, sodEx]
      decide),
   (transfer_atomic_pair userA logOld 0 "b" nowEx sodEx).2 (by
      norm_num [transfer, logOld, userA])⟩

/-- C6: a failed deposit, withdraw or transfer leaves the transaction log,
and hence every actor's derived balance, unchanged. -/
theorem failed_call_leaves_state_unchanged (cu : Option User) (l : List Transaction)
    (a : ℚ) (rid : String) (n s : Int) (uid : String) :
    ((deposit cu l a n).1 = false → (deposit cu l a n).2 = l ∧
      balanceOfId uid (deposit cu l a n).2 = balanceOfId uid l) ∧
    ((withdraw cu l a n s).1 = false → (withdraw cu l a n s).2 = l ∧
      balanceOfId uid (withdraw cu l a n s).2 = balanceOfId uid l) ∧
    ((transfer cu l a rid n s).1 = false → (transfer cu l a rid n s).2 = l ∧
      balanceOfId uid (transfer cu l a rid n s).2 = balanceOfId uid l) := by
  refine ⟨fun h => ?_, fun h => ?_, fun h => ?_⟩
  · have h2 : (deposit cu l a n).2 = l := by
      cases cu with
      | none => rfl
      | some u =>
        revert h
        simp only [deposit]
        split
        · intro _; rfl
        · intro h; exact absurd h (by simp)
    exact ⟨h2, by rw [h2]⟩
  · have h2 : (withdraw cu l a n s).2 = l := by
      cases cu with
      | none => rfl
      | some u =>
        revert h
        simp only [withdraw]
        split
        · intro _; rfl
        · split
          · intro _; rfl
          · intro h; exact absurd h (by simp)
    exact ⟨h2, by rw [h2]⟩
  · have h2 : (transfer cu l a rid n s).2 = l := by
      cases cu with
      | none => rfl
      | some u => exact transfer_failure_log u l a rid n s h
    exact ⟨h2, by rw [h2]⟩

theorem failed_call_leaves_state_unchanged_witness :
    (deposit (some userA) logOld 0 nowEx).2 = logOld ∧
    (withdraw (some userA) logOld 0 nowEx sodEx).2 = logOld ∧
    (transfer (some userA) logOld 0 "b" nowEx sodEx).2 = logOld :=
  ⟨((failed_call_leaves_state_unchanged (some userA) logOld 0 "b" nowEx sodEx "a").1
      (by norm_num [deposit])).1,
   ((failed_call_leaves_state_unchanged (some userA) logOld 0 "b" nowEx sodEx "a").2.1
      (by norm_num [withdraw])).1,
   ((failed_call_leaves_state_unchanged (some userA) logOld 0 "b" nowEx sodEx "a").2.2
      (by norm_num [transfer])).1⟩

/-- Case analysis of one operation's effect on the log: either nothing was
appended, or the append carries the operation's established preconditions. -/
theorem applyOp_cases (cu : Option User) (l : List Transaction) (op : Op) :
    applyOp cu l op = l ∨
    (∃ u a n, cu = some u ∧ 0 < a ∧
      applyOp cu l op = l ++
        [{ userId := u.id, type := TransactionType.deposit, amount := a,
           timestamp := n }]) ∨
    (∃ u a n, cu = some u ∧ 0 < a ∧ a ≤ sBal u.id l ∧
      applyOp cu l op = l ++
        [{ userId := u.id, type := TransactionType.withdrawal, amount := a,
           timestamp := n }]) ∨
    (∃ u a rid n, cu = some u ∧ 0 < a ∧ a ≤ sBal u.id l ∧ u.id ≠ rid ∧
      applyOp cu l op = l ++
        [{ userId := u.id, type := TransactionType.transfer_out, amount := a,
           senderOrRecipient := some rid, timestamp := n },
         { userId := rid, type := TransactionType.transfer_in, amount := a,
           senderOrRecipient := some u.id, timestamp := n }]) := by
  cases op with
  | dep a n =>
    cases cu with
    | none => exact Or.inl rfl
    | some u =>
      simp only [applyOp, deposit]
      split
      · exact Or.inl rfl
      · rename_i h
        exact Or.inr (Or.inl ⟨u, a, n, rfl, not_le.mp h, rfl⟩)
  | wd a n s =>
    cases cu with
    | none => exact Or.inl rfl
    | some u =>
      simp only [applyOp, withdraw]
      split
      · exact Or.inl rfl
      · rename_i h1
        split
        · exact Or.inl rfl
        · push_neg at h1
          rw [balance_eq_sBal] at h1
          exact Or.inr (Or.inr (Or.inl ⟨u, a, n, rfl, h1.1, h1.2, rfl⟩))
  | tr a rid n s =>
    cases cu with
    | none => exact Or.inl rfl
    | some u =>
      simp only [applyOp, transfer]
      split
      · exact Or.inl rfl
      · rename_i h1
        split
        · exact Or.inl rfl
        · push_neg at h1
          rw [balance_eq_sBal] at h1
          exact Or.inr (Or.inr (Or.inr
            ⟨u, a, rid, n, rfl, h1.1, h1.2.1, h1.2.2, rfl⟩))

/-- No operation can make any actor's signed balance negative. -/
theorem sBal_nonneg_applyOp (cu : Option User) (l : List Transaction) (op : Op)
    (ih : ∀ uid, 0 ≤ sBal uid l) : ∀ uid, 0 ≤ sBal uid (applyOp cu l op) := by
  intro uid
  rcases applyOp_cases cu l op with h | ⟨u, a, n, _, ha, h⟩ |
    ⟨u, a, n, _, ha, hb, h⟩ | ⟨u, a, rid, n, _, ha, hb, hne, h⟩
  · rw [h]; exact ih uid
  · rw [h, sBal_append, sBal_singleton]
    have h0 := ih uid
    split
    · simp only [signedAmount]; linarith
    · linarith
  · rw [h, sBal_append, sBal_singleton]
    have h0 := ih uid
    split
    · rename_i hc
      have hcu : u.id = uid := hc
      subst hcu
      simp only [signedAmount]
      linarith
    · linarith
  · rw [h, sBal_append, sBal_cons, sBal_cons, sBal_nil]
    have h0 := ih uid
    simp only [signedAmount]
    by_cases h1 : u.id = uid
    · subst h1
      by_cases h2 : rid = u.id
      · simp [h2]; linarith
      · simp [h2]; linarith
    · simp only [h1, if_false]
      by_cases h2 : rid = uid
      · subst h2; simp; linarith
      · simp [h2]; linarith

/-- Every reachable log gives every actor a nonnegative signed balance. -/
theorem reachable_sBal_nonneg (l : List Transaction) (hl : Reachable l) :
    ∀ uid, 0 ≤ sBal uid l := by
  induction hl with
  | nil => intro uid; rw [sBal_nil]
  | step cu op hr ih => exact sBal_nonneg_applyOp cu _ op ih

/-- C3: in every state reachable from the empty log by the public
operations, every actor's balance is nonnegative; withdraw and transfer
reject any request whose amount exceeds the current balance. -/
theorem no_negative_balance (l : List Transaction) (hl : Reachable l) (u : User)
    (a : ℚ) (rid : String) (n s : Int) :
    0 ≤ balance (some u) l ∧
    (balance (some u) l < a → (withdraw (some u) l a n s).1 = false) ∧
    (balance (some u) l < a → (transfer (some u) l a rid n s).1 = false) := by
  refine ⟨?_, ?_, ?_⟩
  · rw [balance_eq_sBal]
    exact reachable_sBal_nonneg l hl u.id
  · intro hlt
    simp only [withdraw]
    rw [if_pos (Or.inr hlt)]
  · intro hlt
    simp only [transfer]
    rw [if_pos (Or.inr (Or.inl hlt))]

theorem no_negative_balance_witness :
    0 ≤ balance (some userA) logDep ∧
    (withdraw (some userA) logDep 200 nowEx sodEx).1 = false ∧
    (transfer (some userA) logDep 200 "b" nowEx sodEx).1 = false := by
  have hr : Reachable logDep :=
    Reachable.step (some userA) (Op.dep 100 0) Reachable.nil
  have h := no_negative_balance logDep hr userA 200 "b" nowEx sodEx
  have hlt : balance (some userA) logDep < 200 := by
    norm_num [balance, ownedBy, balanceStep, logDep, deposit, userA]
  exact ⟨h.1, h.2.1 hlt, h.2.2 hlt⟩

/-- Summing the per-actor signed balances over any cover of the log's actor
ids yields the signed total of the whole log. -/
theorem sum_sBal_eq_total (l : List Transaction) :
    ∀ S : Finset String, (∀ t ∈ l, t.userId ∈ S) →
      (S.sum fun uid => sBal uid l) = (l.map signedAmount).sum := by
  induction l with
  | nil => intro S _; simp [sBal_nil]
  | cons t l ih =>
    intro S hcov
    have hmem : t.userId ∈ S := hcov t (List.mem_cons_self t l)
    have hcov2 : ∀ x ∈ l, x.userId ∈ S := fun x hx => hcov x (List.mem_cons_of_mem t hx)
    calc (S.sum fun uid => sBal uid (t :: l))
        = S.sum (fun uid => (if t.userId = uid then signedAmount t else 0) + sBal uid l) :=
          Finset.sum_congr rfl fun uid _ => sBal_cons uid t l
      _ = (S.sum fun uid => if t.userId = uid then signedAmount t else 0) +
            (S.sum fun uid => sBal uid l) := Finset.sum_add_distrib
      _ = signedAmount t + (l.map signedAmount).sum := by
          rw [ih S hcov2, Finset.sum_ite_eq S t.userId fun _ => signedAmount t,
            if_pos hmem]
      _ = ((t :: l).map signedAmount).sum := by simp

theorem totalDeposits_append (l₁ l₂ : List Transaction) :
    totalDeposits (l₁ ++ l₂) = totalDeposits l₁ + totalDeposits l₂ := by
  simp [totalDeposits, List.filter_append]

theorem totalWithdrawals_append (l₁ l₂ : List Transaction) :
    totalWithdrawals (l₁ ++ l₂) = totalWithdrawals l₁ + totalWithdrawals l₂ := by
  simp [totalWithdrawals, List.filter_append]

/-- On reachable logs, the signed total is deposits minus withdrawals:
transfer pairs cancel out. -/
theorem reachable_signed_total (l : List Transaction) (hl : Reachable l) :
    (l.map signedAmount).sum = totalDeposits l - totalWithdrawals l := by
  induction hl with
  | nil => simp [totalDeposits, totalWithdrawals]
  | step cu op hr ih =>
    rcases applyOp_cases cu _ op with h | ⟨u, a, n, _, ha, h⟩ |
      ⟨u, a, n, _, ha, hb, h⟩ | ⟨u, a, rid, n, _, ha, hb, hne, h⟩
    · rw [h]; exact ih
    · rw [h]
      rw [List.map_append, List.sum_append, totalDeposits_append,
        totalWithdrawals_append, ih]
      simp [totalDeposits, totalWithdrawals, List.filter_cons, signedAmount]
      ring
    · rw [h]
      rw [List.map_append, List.sum_append, totalDeposits_append,
        totalWithdrawals_append, ih]
      simp [totalDeposits, totalWithdrawals, List.filter_cons, signedAmount]
      ring
    · rw [h]
      rw [List.map_append, List.sum_append, totalDeposits_append,
        totalWithdrawals_append, ih]
      simp [totalDeposits, totalWithdrawals, List.filter_cons, signedAmount]

/-- Appending a transfer pair whose two actors are covered by `S` shifts
the summed balances by the pair's two signed amounts. -/
theorem sum_sBal_append_pair (S : Finset String) (l : List Transaction)
    (t₁ t₂ : Transaction) (h₁ : t₁.userId ∈ S) (h₂ : t₂.userId ∈ S) :
    (S.sum fun uid => sBal uid (l ++ [t₁, t₂])) =
      (S.sum fun uid => sBal uid l) + (signedAmount t₁ + signedAmount t₂) := by
  calc (S.sum fun uid => sBal uid (l ++ [t₁, t₂]))
      = S.sum (fun uid => sBal uid l +
          ((if t₁.userId = uid then signedAmount t₁ else 0) +
           ((if t₂.userId = uid then signedAmount t₂ else 0) + 0))) := by
        refine Finset.sum_congr rfl fun uid _ => ?_
        rw [sBal_append, sBal_cons, sBal_cons, sBal_nil]
    _ = (S.sum fun uid => sBal uid l) +
          ((S.sum fun uid => if t₁.userId = uid then signedAmount t₁ else 0) +
           (S.sum fun uid => if t₂.userId = uid then signedAmount t₂ else 0)) := by
        simp only [add_zero]
        rw [Finset.sum_add_distrib, Finset.sum_add_distrib]
    _ = (S.sum fun uid => sBal uid l) + (signedAmount t₁ + signedAmount t₂) := by
        rw [Finset.sum_ite_eq S t₁.userId fun _ => signedAmount t₁,
            Finset.sum_ite_eq S t₂.userId fun _ => signedAmount t₂,
            if_pos h₁, if_pos h₂]

/-- C4: over any set of actors covering the log, the sum of the derived
balances of a reachable log equals total deposits minus total withdrawals,
and a successful transfer between covered actors leaves that sum
unchanged. -/
theorem conservation_of_value (l : List Transaction) (hl : Reachable l)
    (S : Finset String) (hcov : ∀ t ∈ l, t.userId ∈ S) :
    (S.sum fun uid => balanceOfId uid l) = totalDeposits l - totalWithdrawals l ∧
    (∀ (u : User) (a : ℚ) (rid : String) (n s : Int), u.id ∈ S → rid ∈ S →
      (transfer (some u) l a rid n s).1 = true →
      (S.sum fun uid => balanceOfId uid (transfer (some u) l a rid n s).2) =
        S.sum fun uid => balanceOfId uid l) := by
  constructor
  · calc (S.sum fun uid => balanceOfId uid l)
        = S.sum fun uid => sBal uid l :=
          Finset.sum_congr rfl fun uid _ => balanceOfId_eq_sBal uid l
      _ = (l.map signedAmount).sum := sum_sBal_eq_total l S hcov
      _ = totalDeposits l - totalWithdrawals l := reachable_signed_total l hl
  · intro u a rid n s hu hrid hsucc
    have e₁ : (S.sum fun uid => balanceOfId uid (transfer (some u) l a rid n s).2) =
        S.sum fun uid => sBal uid (transfer (some u) l a rid n s).2 :=
      Finset.sum_congr rfl fun uid _ => balanceOfId_eq_sBal uid _
    have e₂ : (S.sum fun uid => balanceOfId uid l) = S.sum fun uid => sBal uid l :=
      Finset.sum_congr rfl fun uid _ => balanceOfId_eq_sBal uid l
    rw [e₁, e₂, transfer_success_append u l a rid n s hsucc,
      sum_sBal_append_pair S l _ _ hu hrid]
    simp [signedAmount]

theorem conservation_of_value_witness :
    (({"a", "b"} : Finset String).sum fun uid => balanceOfId uid logOld) =
      totalDeposits logOld - totalWithdrawals logOld ∧
    (({"a", "b"} : Finset String).sum fun uid =>
        balanceOfId uid (transfer (some userA) logOld 50 "b" nowEx sodEx).2) =
      ({"a", "b"} : Finset String).sum fun uid => balanceOfId uid logOld := by
  have hr : Reachable logOld :=
    Reachable.step (some userA) (Op.dep 100 0) Reachable.nil
  have hcov : ∀ t ∈ logOld, t.userId ∈ ({"a", "b"} : Finset String) := by
    intro t ht
    simp [logOld] at ht
    simp [ht]
  have h := conservation_of_value logOld hr {"a", "b"} hcov
  refine ⟨h.1, h.2 userA 50 "b" nowEx sodEx (by simp [userA]) (by simp) ?_⟩
  norm_num [transfer, balance, ownedBy, balanceStep, checkRateLimits,
    TRANSACTION_LIMITS, logOld, userA, nowEx, sodEx]
  decide

/-- The code's rate-limit check computes exactly the spec's ordered
algorithm. -/
theorem checkRateLimits_eq_evaluateSpec (u : User) (l : List Transaction)
    (a : ℚ) (c : RateLimitCategory) (n s : Int) :
    checkRateLimits (some u) l a c n s = evaluateSpec u l a c n s := by
  have hw : (l.filter fun t => t.userId == u.id &&
      t.type == TransactionType.withdrawal && decide (s ≤ t.timestamp)).foldl
        (fun acc t => acc + t.amount) 0 = dailyWithdrawalSum u l s := by
    rw [foldl_amount]
    simp [dailyWithdrawalSum]
  have ht : (l.filter fun t => t.userId == u.id &&
      t.type == TransactionType.transfer_out && decide (s ≤ t.timestamp)).foldl
        (fun acc t => acc + t.amount) 0 = dailyTransferSum u l s := by
    rw [foldl_amount]
    simp [dailyTransferSum]
  simp only [checkRateLimits, evaluateSpec, recentCount, TRANSACTION_LIMITS]
  rw [hw, ht]

/-- C5: the rate-limit evaluation applies the spec's checks in the spec's
fixed order: it equals the spec algorithm on every input; any request at or
under the per-transaction cap is denied as soon as five of the actor's
entries fall inside the trailing minute (so a 6th transaction in a
60-second window is denied) and allowed when fewer than five do and both
daily caps have room (so the 5th is allowed); deposits are never rate
limited. -/
theorem rateLimiter_fixed_order (u : User) (l : List Transaction) (a : ℚ)
    (c : RateLimitCategory) (n s : Int) :
    checkRateLimits (some u) l a c n s = evaluateSpec u l a c n s ∧
    (a ≤ 10000 → 5 ≤ recentCount u l n →
      checkRateLimits (some u) l a c n s = false) ∧
    (a ≤ 10000 → recentCount u l n < 5 → dailyWithdrawalSum u l s + a ≤ 5000 →
      dailyTransferSum u l s + a ≤ 5000 →
      checkRateLimits (some u) l a c n s = true) ∧
    (0 < a → (deposit (some u) l a n).1 = true) := by
  have he := checkRateLimits_eq_evaluateSpec u l a c n s
  refine ⟨he, ?_, ?_, ?_⟩
  · intro ha hcnt
    rw [he]
    unfold evaluateSpec
    rw [if_neg (not_lt.mpr ha), if_pos hcnt]
  · intro ha hcnt hwd htr
    have h₃ : ¬(c = RateLimitCategory.withdrawal ∧
        dailyWithdrawalSum u l s + a > 5000) :=
      fun hc => absurd hc.2 (not_lt.mpr hwd)
    have h₄ : ¬(c = RateLimitCategory.transfer ∧
        dailyTransferSum u l s + a > 5000) :=
      fun hc => absurd hc.2 (not_lt.mpr htr)
    rw [he]
    unfold evaluateSpec
    rw [if_neg (not_lt.mpr ha), if_neg (not_le.mpr hcnt), if_neg h₃, if_neg h₄]
  · intro ha
    simp only [deposit]
    rw [if_neg (not_le.mpr ha)]

theorem rateLimiter_fixed_order_witness :
    checkRateLimits (some userA) log5 10 RateLimitCategory.withdrawal nowEx sodEx
      = false ∧
    checkRateLimits (some userA) log4 10 RateLimitCategory.withdrawal nowEx sodEx
      = true ∧
    (deposit (some userA) log5 10 nowEx).1 = true :=
  ⟨(rateLimiter_fixed_order userA log5 10 RateLimitCategory.withdrawal nowEx sodEx).2.1
      (by norm_num)
      (by decide),
   (rateLimiter_fixed_order userA log4 10 RateLimitCategory.withdrawal nowEx sodEx).2.2.1
      (by norm_num)
      (by decide)
      (by
        simp [dailyWithdrawalSum, log4, recentTx, userA, sodEx, nowEx,
          List.replicate_succ, List.filter_cons]
        norm_num)
      (by
        simp [dailyTransferSum, log4, recentTx, userA, sodEx, nowEx,
          List.replicate_succ, List.filter_cons]
        norm_num),
   (rateLimiter_fixed_order userA log5 10 RateLimitCategory.withdrawal nowEx sodEx).2.2.2
      (by norm_num)⟩

/-- C7 counterexample: a withdrawal denied by the rate limiter (funds are
sufficient) and a withdrawal failing for insufficient funds return the very
same result, so the caller cannot tell the five spec error categories
apart — the source reports every failure as the same boolean. -/
theorem withdraw_failures_not_categorized :
    (10 : ℚ) ≤ balance (some userA) log5 ∧
    balance (some userA) logIF < 10 ∧
    (withdraw (some userA) log5 10 nowEx sodEx).1 = false ∧
    (withdraw (some userA) logIF 10 nowEx sodEx).1 = false ∧
    (withdraw (some userA) log5 10 nowEx sodEx).1 =
      (withdraw (some userA) logIF 10 nowEx sodEx).1 := by
  refine ⟨?_, ?_, ?_, ?_, ?_⟩
  · simp [balance, ownedBy, balanceStep, log5, recentTx, userA,
      List.replicate_succ, List.filter_cons] <;> norm_num
  · simp [balance, ownedBy, balanceStep, logIF, userA, List.filter_cons] <;>
      norm_num
  · simp [withdraw, balance, ownedBy, balanceStep, checkRateLimits,
      TRANSACTION_LIMITS, log5, recentTx, userA, nowEx, sodEx,
      List.replicate_succ, List.filter_cons] <;> norm_num
  · simp [withdraw, balance, ownedBy, balanceStep, logIF, userA,
      List.filter_cons] <;> norm_num
  · simp [withdraw, balance, ownedBy, balanceStep, checkRateLimits,
      TRANSACTION_LIMITS, log5, logIF, recentTx, userA, nowEx, sodEx,
      List.replicate_succ, List.filter_cons] <;> norm_num

/-- C7 amended: the source reports no error categories: every failure cause
of deposit, withdraw and transfer yields the identical observable result,
the boolean `false` with the log unchanged. -/
theorem failed_calls_single_false (u : User) (l : List Transaction) (a : ℚ)
    (rid : String) (n s : Int) :
    (a ≤ 0 → deposit (some u) l a n = (false, l)) ∧
    ((a ≤ 0 ∨ balance (some u) l < a ∨
        checkRateLimits (some u) l a RateLimitCategory.withdrawal n s = false) →
      withdraw (some u) l a n s = (false, l)) ∧
    ((a ≤ 0 ∨ balance (some u) l < a ∨ u.id = rid ∨
        checkRateLimits (some u) l a RateLimitCategory.transfer n s = false) →
      transfer (some u) l a rid n s = (false, l)) := by
  refine ⟨fun h => ?_, fun h => ?_, fun h => ?_⟩
  · simp only [deposit]
    rw [if_pos h]
  · simp only [withdraw]
    rcases h with h | h | h
    · rw [if_pos (Or.inl h)]
    · rw [if_pos (Or.inr h)]
    · by_cases hg : a ≤ 0 ∨ balance (some u) l < a
      · rw [if_pos hg]
      · rw [if_neg hg, if_pos h]
  · simp only [transfer]
    rcases h with h | h | h | h
    · rw [if_pos (Or.inl h)]
    · rw [if_pos (Or.inr (Or.inl h))]
    · rw [if_pos (Or.inr (Or.inr h))]
    · by_cases hg : a ≤ 0 ∨ balance (some u) l < a ∨ u.id = rid
      · rw [if_pos hg]
      · rw [if_neg hg, if_pos h]

theorem failed_calls_single_false_witness :
    deposit (some userA) logIF 0 nowEx = (false, logIF) ∧
    withdraw (some userA) logIF 10 nowEx sodEx = (false, logIF) ∧
    transfer (some userA) logIF 10 "a" nowEx sodEx = (false, logIF) :=
  ⟨(failed_calls_single_false userA logIF 0 "a" nowEx sodEx).1 le_rfl,
   (failed_calls_single_false userA logIF 10 "a" nowEx sodEx).2.1
     (Or.inr (Or.inl (by
       simp [balance, ownedBy, balanceStep, logIF, userA, List.filter_cons]
       norm_num))),
   (failed_calls_single_false userA logIF 10 "a" nowEx sodEx).2.2
     (Or.inr (Or.inr (Or.inl rfl)))⟩

/-- C8 counterexample: the recipient id "ghost" resolves to no user, yet
the transfer succeeds and appends entries — the counterparty is never
validated against the identity collaborator. -/
theorem transfer_to_unknown_counterparty :
    getUserById usersEx "ghost" = none ∧
    (transfer (some userA) logOld 50 "ghost" nowEx sodEx).1 = true ∧
    (transfer (some userA) logOld 50 "ghost" nowEx sodEx).2 ≠ logOld := by
  have hs : (transfer (some userA) logOld 50 "ghost" nowEx sodEx).1 = true := by
    norm_num [transfer, balance, ownedBy, balanceStep, checkRateLimits,
      TRANSACTION_LIMITS, logOld, userA, nowEx, sodEx] <;> decide
  refine ⟨by decide, hs, ?_⟩
  intro hEq
  rw [transfer_success_append userA logOld 50 "ghost" nowEx sodEx hs] at hEq
  have hlen := congrArg List.length hEq
  simp [logOld] at hlen

/-- C8 amended: transfer performs no counterparty validation: even when the
recipient id resolves to no user, the transfer succeeds and appends the
pair whenever the amount, funds, self-transfer and rate-limit checks
pass. -/
theorem transfer_skips_counterparty_validation (users : List User) (u : User)
    (l : List Transaction) (a : ℚ) (rid : String) (n s : Int)
    (hghost : getUserById users rid = none) (ha : 0 < a)
    (hb : a ≤ balance (some u) l) (hne : u.id ≠ rid)
    (hrl : checkRateLimits (some u) l a RateLimitCategory.transfer n s = true) :
    (transfer (some u) l a rid n s).1 = true ∧
    (transfer (some u) l a rid n s).2 = l ++
      [{ userId := u.id, type := TransactionType.transfer_out, amount := a,
         senderOrRecipient := some rid, timestamp := n },
       { userId := rid, type := TransactionType.transfer_in, amount := a,
         senderOrRecipient := some u.id, timestamp := n }] := by
  have h₁ : ¬(a ≤ 0 ∨ balance (some u) l < a ∨ u.id = rid) := by
    push_neg
    exact ⟨ha, hb, hne⟩
  have hfst : (transfer (some u) l a rid n s).1 = true := by
    simp only [transfer]
    rw [if_neg h₁, if_neg (by simp [hrl])]
  exact ⟨hfst, transfer_success_append u l a rid n s hfst⟩

theorem transfer_skips_counterparty_validation_witness :
    (transfer (some userA) logOld 50 "ghost" nowEx sodEx).1 = true ∧
    (transfer (some userA) logOld 50 "ghost" nowEx sodEx).2 = logOld ++
      [{ userId := "a", type := TransactionType.transfer_out, amount := 50,
         senderOrRecipient := some "ghost", timestamp := nowEx },
       { userId := "ghost", type := TransactionType.transfer_in, amount := 50,
         senderOrRecipient := some "a", timestamp := nowEx }] :=
  transfer_skips_counterparty_validation usersEx userA logOld 50 "ghost" nowEx sodEx
    (by decide)
    (by norm_num)
    (by
      simp [balance, ownedBy, balanceStep, logOld, userA, List.filter_cons] <;>
        norm_num)
    (by decide)
    (by
      simp [checkRateLimits, TRANSACTION_LIMITS, logOld, userA, nowEx, sodEx,
        List.filter_cons] <;> norm_num)

/-- C9 counterexample: two evaluations with the same history, amount,
category and clock values return different decisions when the logged-in
actor differs, so the decision is not a function of history, amount,
category and now alone. -/
theorem rateLimit_depends_on_actor :
    checkRateLimits (some userA) log5 10 RateLimitCategory.withdrawal nowEx sodEx ≠
      checkRateLimits (some userB) log5 10 RateLimitCategory.withdrawal nowEx sodEx := by
  have h₁ : checkRateLimits (some userA) log5 10 RateLimitCategory.withdrawal
      nowEx sodEx = false := by
    simp [checkRateLimits, TRANSACTION_LIMITS, log5, recentTx, userA, nowEx,
      sodEx, List.replicate_succ, List.filter_cons] <;> norm_num
  have h₂ : checkRateLimits (some userB) log5 10 RateLimitCategory.withdrawal
      nowEx sodEx = true := by
    simp [checkRateLimits, TRANSACTION_LIMITS, log5, recentTx, userB, nowEx,
      sodEx, List.replicate_succ, List.filter_cons] <;> norm_num
  rw [h₁, h₂]
  exact Bool.false_ne_true

/-- Restricting a filter to a predicate that already entails the first
filter's condition makes the first filter redundant. -/
theorem filter_own_filter (u : User) (l : List Transaction)
    (q : Transaction → Bool) (hq : ∀ t, q t = true → (t.userId == u.id) = true) :
    (l.filter fun t => t.userId == u.id).filter q = l.filter q := by
  induction l with
  | nil => rfl
  | cons t l ih =>
    by_cases hown : (t.userId == u.id) = true
    · rw [@List.filter_cons_of_pos _ (fun x => x.userId == u.id) t l hown,
        List.filter_cons, List.filter_cons, ih]
    · rw [@List.filter_cons_of_neg _ (fun x => x.userId == u.id) t l hown,
        @List.filter_cons_of_neg _ q t l (fun hqt => hown (hq t hqt)), ih]

/-- C9 amended: the rate-limit decision is a pure function of the current
actor, the supplied history, the amount, the category and the clock values
read during the evaluation (`now` and start of day, modelled as explicit
parameters for the internal `Date.now()` reads): identical inputs give the
identical decision, and only the actor's own history entries influence
it. -/
theorem rateLimit_decision_deterministic (cu : Option User)
    (l l' : List Transaction) (a : ℚ) (c : RateLimitCategory) (n s : Int)
    (u : User) (hl : l = l') :
    checkRateLimits cu l a c n s = checkRateLimits cu l' a c n s ∧
    checkRateLimits (some u) (l.filter fun t => t.userId == u.id) a c n s =
      checkRateLimits (some u) l a c n s := by
  subst hl
  refine ⟨rfl, ?_⟩
  simp only [checkRateLimits]
  rw [filter_own_filter u l _ fun t ht => by
        exact (Bool.and_eq_true_iff.mp ht).1,
      filter_own_filter u l _ fun t ht => by
        exact (Bool.and_eq_true_iff.mp (Bool.and_eq_true_iff.mp ht).1).1,
      filter_own_filter u l _ fun t ht => by
        exact (Bool.and_eq_true_iff.mp (Bool.and_eq_true_iff.mp ht).1).1]

theorem rateLimit_decision_deterministic_witness :
    checkRateLimits (some userA) log5 10 RateLimitCategory.withdrawal nowEx sodEx =
      checkRateLimits (some userA) log5 10 RateLimitCategory.withdrawal nowEx sodEx ∧
    checkRateLimits (some userA) (log5.filter fun t => t.userId == userA.id) 10
        RateLimitCategory.withdrawal nowEx sodEx =
      checkRateLimits (some userA) log5 10 RateLimitCategory.withdrawal nowEx sodEx :=
  rateLimit_decision_deterministic (some userA) log5 log5 10
    RateLimitCategory.withdrawal nowEx sodEx userA rfl

/-- C10: with nobody logged in, deposit, withdraw and transfer fail without
touching the log, and the history query returns the empty sequence. -/
theorem no_user_no_effect (l : List Transaction) (a : ℚ) (rid : String) (n s : Int) :
    deposit none l a n = (false, l) ∧
    withdraw none l a n s = (false, l) ∧
    transfer none l a rid n s = (false, l) ∧
    getTransactionHistory none l = [] :=
  ⟨rfl, rfl, rfl, rfl⟩

end DigitalWallet
